import Mathlib

/-!
Verification development for the library-reminder backend
(`src/backend/src/index.ts`, the JWT/`/api/*` version).

The backend is a Hono/AWS-Lambda application.  We shallowly embed the
parts of it that the specification's claims are about:

* `JSON.parse` on the text returned by the Bedrock model (modelled by
  `jsonParse` over an inductive `Json` type);
* the regex extraction `jsonString.match(/{[\s\S]*}/)` in the
  `/api/upload` handler (modelled by `jsonCandidate`);
* the `books` schema check and the `putRequests` mapping of the upload
  handler (`extractBooks`, `buildPutRequests`, `uploadHandler`);
* the DynamoDB tables, modelled as association lists with the key
  semantics of a DynamoDB partition key (`tablePut`, `tableGet`),
  and the books table as a list of records (`deleteBook`);
* the scheduled notification scan `handleScheduledNotification`
  (due-date filter, subscription lookup under the fixed key
  `defaultUser`, and the delivery loop whose `catch` sits outside the
  loop).

Strings coming from the outside world (the raw model response) are
`List Char`; parsed JSON strings are Lean `String`s.

Modelling notes (platform collaborators):
* JSON numbers are represented exactly as rationals (`Rat`); JS doubles
  round, but no claim depends on numeric values.
* In `\uXXXX` escapes, a valid surrogate pair is combined into one code
  point as `JSON.parse` does; a lone surrogate (not representable as a
  Lean `Char`) falls back to `Char.ofNat`'s default.  No claim touches
  this corner.
-/

namespace LibraryReminder

/-- JSON values as produced by `JSON.parse`.  Object fields are kept in
source order; duplicate keys are resolved by `objGet` taking the last
binding, as `JSON.parse` does. -/
inductive Json where
  | null : Json
  | bool : Bool → Json
  | num : Rat → Json
  | str : String → Json
  | arr : List Json → Json
  | obj : List (String × Json) → Json
deriving Repr

/-- JavaScript property access result: a property is either `undefined`
or a JSON value. -/
inductive JsVal where
  | undefined : JsVal
  | val : Json → JsVal
deriving Repr

/-- Last binding of a key in an object's field list (duplicate keys in a
JSON text: `JSON.parse` keeps the last one). -/
def objGet (fields : List (String × Json)) (k : String) : Option Json :=
  (fields.reverse.find? (fun p => p.1 == k)).map Prod.snd

/-- JavaScript property read `v.k` for the keys the handler uses:
defined on objects via lookup, `undefined` on every other non-null
value.  (Reading a property of `null` throws; callers handle `null`
separately.) -/
def jsGet (v : Json) (k : String) : JsVal :=
  match v with
  | .obj fields =>
    match objGet fields k with
    | some j => .val j
    | none => .undefined
  | _ => .undefined

/-- JavaScript truthiness of a parsed JSON value or `undefined`. -/
def jsTruthy : JsVal → Bool
  | .undefined => false
  | .val .null => false
  | .val (.bool b) => b
  | .val (.num q) => !(decide (q = 0))
  | .val (.str s) => !(s == "")
  | .val (.arr _) => true
  | .val (.obj _) => true

/-- `Array.isArray`. -/
def isArrayVal : JsVal → Bool
  | .val (.arr _) => true
  | _ => false

/-! ### A model of `JSON.parse` (ECMA-404 grammar, fuel-based) -/

/-- JSON insignificant whitespace. -/
def isJsonWs (c : Char) : Bool :=
  c == ' ' || c == '\t' || c == '\n' || c == '\r'

def skipWs (cs : List Char) : List Char :=
  cs.dropWhile isJsonWs

def isDigitCh (c : Char) : Bool :=
  '0' ≤ c && c ≤ '9'

def digitVal (c : Char) : Nat :=
  c.toNat - '0'.toNat

def digitsToNat (ds : List Char) : Nat :=
  ds.foldl (fun acc c => acc * 10 + digitVal c) 0

/-- Parse one or more decimal digits; `none` if the input does not start
with a digit. -/
def parseDigits (cs : List Char) : Option (List Char × List Char) :=
  match cs.takeWhile isDigitCh with
  | [] => none
  | ds => some (ds, cs.drop ds.length)

def isHexCh (c : Char) : Bool :=
  isDigitCh c || ('a' ≤ c && c ≤ 'f') || ('A' ≤ c && c ≤ 'F')

def hexVal (c : Char) : Nat :=
  if isDigitCh c then digitVal c
  else if 'a' ≤ c && c ≤ 'f' then c.toNat - 'a'.toNat + 10
  else c.toNat - 'A'.toNat + 10

/-- Parse exactly four hex digits (the `XXXX` of a `\uXXXX` escape). -/
def parseHex4 (cs : List Char) : Option (Nat × List Char) :=
  match cs with
  | a :: b :: c :: d :: rest =>
    if isHexCh a && isHexCh b && isHexCh c && isHexCh d then
      some (((hexVal a * 16 + hexVal b) * 16 + hexVal c) * 16 + hexVal d, rest)
    else none
  | _ => none

/-- Body of a JSON string after the opening quote: characters up to the
closing quote, with the escape sequences of ECMA-404.  Raw control
characters below U+0020 are rejected, as `JSON.parse` rejects them. -/
def parseStringBody (fuel : Nat) (cs : List Char) : Option (List Char × List Char) :=
  match fuel with
  | 0 => none
  | fuel + 1 =>
    match cs with
    | [] => none
    | '"' :: rest => some ([], rest)
    | '\\' :: e :: rest =>
      match e with
      | '"' => (parseStringBody fuel rest).map (fun p => ('"' :: p.1, p.2))
      | '\\' => (parseStringBody fuel rest).map (fun p => ('\\' :: p.1, p.2))
      | '/' => (parseStringBody fuel rest).map (fun p => ('/' :: p.1, p.2))
      | 'b' => (parseStringBody fuel rest).map (fun p => ('\x08' :: p.1, p.2))
      | 'f' => (parseStringBody fuel rest).map (fun p => ('\x0c' :: p.1, p.2))
      | 'n' => (parseStringBody fuel rest).map (fun p => ('\n' :: p.1, p.2))
      | 'r' => (parseStringBody fuel rest).map (fun p => ('\r' :: p.1, p.2))
      | 't' => (parseStringBody fuel rest).map (fun p => ('\t' :: p.1, p.2))
      | 'u' =>
        match parseHex4 rest with
        | none => none
        | some (n, rest2) =>
          if 0xD800 ≤ n ∧ n ≤ 0xDBFF then
            -- possible surrogate pair: JSON.parse combines a following low surrogate
            match rest2 with
            | '\\' :: 'u' :: rest3 =>
              match parseHex4 rest3 with
              | some (m, rest4) =>
                if 0xDC00 ≤ m ∧ m ≤ 0xDFFF then
                  let cp := 0x10000 + (n - 0xD800) * 0x400 + (m - 0xDC00)
                  (parseStringBody fuel rest4).map (fun p => (Char.ofNat cp :: p.1, p.2))
                else
                  (parseStringBody fuel rest3).map
                    (fun p => (Char.ofNat n :: Char.ofNat m :: p.1, p.2))
              | none => none
            | _ => (parseStringBody fuel rest2).map (fun p => (Char.ofNat n :: p.1, p.2))
          else
            (parseStringBody fuel rest2).map (fun p => (Char.ofNat n :: p.1, p.2))
      | _ => none
    | c :: rest =>
      if c.toNat < 0x20 then none
      else (parseStringBody fuel rest).map (fun p => (c :: p.1, p.2))

/-- JSON number, parsed exactly per the grammar
`-? (0 | [1-9][0-9]*) (. [0-9]+)? ([eE][+-]?[0-9]+)?`, returned as an
exact rational. -/
def parseNumber (cs : List Char) : Option (Rat × List Char) :=
  let (neg, cs1) :=
    match cs with
    | '-' :: rest => (true, rest)
    | _ => (false, cs)
  match cs1 with
  | [] => none
  | c :: _ =>
    if !isDigitCh c then none
    else
      let (intDs, cs2) :=
        if c == '0' then ([c], cs1.drop 1)
        else match parseDigits cs1 with
          | some (ds, rest) => (ds, rest)
          | none => ([c], cs1)
      let (fracDs, cs3) :=
        match cs2 with
        | '.' :: rest =>
          match parseDigits rest with
          | some (ds, rest2) => (some ds, rest2)
          | none => (none, cs2)
        | _ => (some [], cs2)
      match fracDs with
      | none => none
      | some fds =>
        let expPart :
            Option (Bool × List Char × List Char) :=
          match cs3 with
          | 'e' :: rest =>
            match rest with
            | '+' :: rest2 => (parseDigits rest2).map (fun p => (false, p.1, p.2))
            | '-' :: rest2 => (parseDigits rest2).map (fun p => (true, p.1, p.2))
            | _ => (parseDigits rest).map (fun p => (false, p.1, p.2))
          | 'E' :: rest =>
            match rest with
            | '+' :: rest2 => (parseDigits rest2).map (fun p => (false, p.1, p.2))
            | '-' :: rest2 => (parseDigits rest2).map (fun p => (true, p.1, p.2))
            | _ => (parseDigits rest).map (fun p => (false, p.1, p.2))
          | _ => some (false, [], cs3)
        match expPart with
        | none => none
        | some (eneg, eds, cs4) =>
          let mant : Rat :=
            (digitsToNat intDs : Rat) +
              (digitsToNat fds : Rat) / ((10 : Rat) ^ fds.length)
          let e := digitsToNat eds
          let scaled := if eneg then mant / (10 : Rat) ^ e else mant * (10 : Rat) ^ e
          some (if neg then -scaled else scaled, cs4)

mutual

/-- One JSON value, fuel-based recursive-descent.  Fuel only bounds the
recursion; `jsonParse` supplies more fuel than any input can consume. -/
def parseValue (fuel : Nat) (cs : List Char) : Option (Json × List Char) :=
  match fuel with
  | 0 => none
  | fuel + 1 =>
    match skipWs cs with
    | 'n' :: 'u' :: 'l' :: 'l' :: rest => some (.null, rest)
    | 't' :: 'r' :: 'u' :: 'e' :: rest => some (.bool true, rest)
    | 'f' :: 'a' :: 'l' :: 's' :: 'e' :: rest => some (.bool false, rest)
    | '"' :: rest =>
      (parseStringBody (rest.length + 1) rest).map
        (fun p => (.str (String.mk p.1), p.2))
    | '[' :: rest =>
      (match skipWs rest with
       | ']' :: rest2 => some (.arr [], rest2)
       | other => (parseElems fuel other).map (fun p => (.arr p.1, p.2)))
    | '{' :: rest =>
      (match skipWs rest with
       | '}' :: rest2 => some (.obj [], rest2)
       | other => (parseMembers fuel other).map (fun p => (.obj p.1, p.2)))
    | other => (parseNumber other).map (fun p => (.num p.1, p.2))

/-- Comma-separated array elements followed by `]`. -/
def parseElems (fuel : Nat) (cs : List Char) : Option (List Json × List Char) :=
  match fuel with
  | 0 => none
  | fuel + 1 =>
    match parseValue fuel cs with
    | none => none
    | some (v, rest) =>
      match skipWs rest with
      | ',' :: rest2 => (parseElems fuel rest2).map (fun p => (v :: p.1, p.2))
      | ']' :: rest2 => some ([v], rest2)
      | _ => none

/-- Comma-separated object members followed by `}`. -/
def parseMembers (fuel : Nat) (cs : List Char) :
    Option (List (String × Json) × List Char) :=
  match fuel with
  | 0 => none
  | fuel + 1 =>
    match skipWs cs with
    | '"' :: rest =>
      match parseStringBody (rest.length + 1) rest with
      | none => none
      | some (key, rest2) =>
        match skipWs rest2 with
        | ':' :: rest3 =>
          match parseValue fuel rest3 with
          | none => none
          | some (v, rest4) =>
            match skipWs rest4 with
            | ',' :: rest5 =>
              (parseMembers fuel rest5).map
                (fun p => ((String.mk key, v) :: p.1, p.2))
            | '}' :: rest5 => some ([(String.mk key, v)], rest5)
            | _ => none
        | _ => none
    | _ => none

end

/-- Model of `JSON.parse`: parse one value, then require only
whitespace to remain. -/
def jsonParse (cs : List Char) : Option Json :=
  match parseValue (2 * cs.length + 2) cs with
  | some (v, rest) => if (skipWs rest).isEmpty then some v else none
  | none => none

/-! ### The upload handler's JSON extraction

`/api/upload` does `jsonString.match(/{[\s\S]*}/)`.  That regex has a
unique match when one exists: it starts at the first `\x7b` of the text
(the leftmost position where the pattern can match) and, `[\s\S]*` being
greedy, ends at the last `\x7d` of the text.  There is a match exactly
when some `\x7b` is followed, strictly later, by some `\x7d`. -/

/-- The substring `match[0]` of `jsonString.match(/{[\s\S]*}/)`:
from the first opening brace to the last closing brace, `none` when the
regex does not match. -/
def jsonCandidate (cs : List Char) : Option (List Char) :=
  let afterBrace := cs.dropWhile (fun c => c != '{')
  match afterBrace with
  | [] => none
  | _ :: _ =>
    match afterBrace.reverse.dropWhile (fun c => c != '}') with
    | [] => none
    | r => some r.reverse

/-- The distinct ways the `try` block of `/api/upload` can throw before
reaching the batch write.  `noJsonFound` is the handler's own
`Could not find a valid JSON object in the Bedrock response.`;
`jsonParseError` is the `SyntaxError` thrown by `JSON.parse` on the
matched substring; `invalidFormat` is the handler's
`Invalid format from Bedrock`; `nullBookElement` is the `TypeError`
thrown by reading `.title` on a `null` array element.  All of them are
caught by the handler's single `catch`, logged, and surfaced as the
same generic 500 response. -/
inductive UploadError where
  | noJsonFound : UploadError
  | jsonParseError : UploadError
  | invalidFormat : UploadError
  | nullBookElement : UploadError
deriving DecidableEq, Repr

def booksKey : String := "books"
def titleKey : String := "title"
def lendingDateKey : String := "lending_date"
def dueDateKey : String := "due_date"
def defaultUserKey : String := "defaultUser"

/-- Lines 419-431 of the upload handler: regex match, `JSON.parse` of
the matched substring, then
`if (!parsedResult.books || !Array.isArray(parsedResult.books)) throw`.
Since every JS array is truthy and `Array.isArray` is false on every
non-array (including `undefined`), the guard passes exactly when the
`books` property is an array. -/
def extractBooks (rawText : List Char) : Except UploadError (List Json) :=
  match jsonCandidate rawText with
  | none => .error .noJsonFound
  | some cand =>
    match jsonParse cand with
    | none => .error .jsonParseError
    | some parsedResult =>
      match jsGet parsedResult booksKey with
      | .val (.arr elems) => .ok elems
      | _ => .error .invalidFormat

/-- One item of the `putRequests` batch (and, once written, one record
of the books table).  `title`, `lendingDate`, `dueDate` are whatever JS
property reads produced, `undefined` included: the handler performs no
validation. -/
structure LoanItem where
  userId : String
  bookId : String
  title : JsVal
  lendingDate : JsVal
  dueDate : JsVal
deriving Repr

/-- `parsedResult.books.map(book => ...)` with `bookId: uuidv4()`
modelled by an injective-by-assumption id supply indexed by position.
Reading `.title` on a `null` element throws a `TypeError`, modelled by
`none`; every non-null element is mapped, whether or not its fields are
present. -/
def buildPutRequests (uid : String) (ids : Nat → String) :
    Nat → List Json → Option (List LoanItem)
  | _, [] => some []
  | i, b :: rest =>
    match b with
    | .null => none
    | _ =>
      (buildPutRequests uid ids (i + 1) rest).map
        (fun items =>
          { userId := uid
            bookId := ids i
            title := jsGet b titleKey
            lendingDate := jsGet b lendingDateKey
            dueDate := jsGet b dueDateKey } :: items)

/-- The `/api/upload` handler from the point where the model's text is
in hand: extraction, mapping, and the guarded batch write.  Returns the
HTTP-level outcome (`.ok count` for the 200 `{success, count}` body,
`.error e` for the caught-and-logged 500) together with the books table
after the request. -/
def uploadHandler (uid : String) (ids : Nat → String) (rawText : List Char)
    (store : List LoanItem) : Except UploadError Nat × List LoanItem :=
  match extractBooks rawText with
  | .error e => (.error e, store)
  | .ok books =>
    match buildPutRequests uid ids 0 books with
    | none => (.error .nullBookElement, store)
    | some putRequests =>
      if putRequests.length > 0 then
        (.ok putRequests.length, store ++ putRequests)
      else
        (.ok putRequests.length, store)

/-! ### Dates

`handleScheduledNotification` computes `today` (midnight) and
`tomorrow = today + 1 day` with JS `Date`, then formats both as
`YYYY-MM-DD` via `toISOString().split('T')[0]`.  We model the calendar
arithmetic of `setDate(getDate() + 1)` directly. -/

structure Date where
  year : Nat
  month : Nat
  day : Nat
deriving DecidableEq, Repr

def isLeap (y : Nat) : Bool :=
  (y % 4 == 0 && y % 100 != 0) || y % 400 == 0

def daysInMonth (y m : Nat) : Nat :=
  if m == 2 then (if isLeap y then 29 else 28)
  else if m == 4 || m == 6 || m == 9 || m == 11 then 30
  else 31

/-- `tomorrow.setDate(today.getDate() + 1)`: JS `Date` rolls the day
over into the next month and year. -/
def addOneDay (d : Date) : Date :=
  if d.day < daysInMonth d.year d.month then ⟨d.year, d.month, d.day + 1⟩
  else if d.month < 12 then ⟨d.year, d.month + 1, 1⟩
  else ⟨d.year + 1, 1, 1⟩

def pad2 (n : Nat) : String :=
  if n < 10 then "0" ++ toString n else toString n

def pad4 (n : Nat) : String :=
  if n < 10 then "000" ++ toString n
  else if n < 100 then "00" ++ toString n
  else if n < 1000 then "0" ++ toString n
  else toString n

/-- `toISOString().split('T')[0]`: zero-padded `YYYY-MM-DD`. -/
def fmtDate (d : Date) : String :=
  pad4 d.year ++ "-" ++ pad2 d.month ++ "-" ++ pad2 d.day

/-! ### DynamoDB tables keyed by a partition key

The subscription table has partition key `userId`; `PutCommand`
replaces the whole item under its key, `GetCommand` fetches by key.  We
model a keyed table as an association list in which a put removes any
existing item with the same key. -/

section KeyedTable

variable {α : Type}

/-- `PutCommand`: full overwrite of the item under key `k`. -/
def tablePut (st : List (String × α)) (k : String) (v : α) : List (String × α) :=
  st.filter (fun e => e.1 != k) ++ [(k, v)]

/-- `GetCommand`: the item under key `k`, if any. -/
def tableGet (st : List (String × α)) (k : String) : Option α :=
  (st.find? (fun e => e.1 == k)).map Prod.snd

/-- How many items of the table carry key `k`. -/
def countKey (st : List (String × α)) (k : String) : Nat :=
  (st.filter (fun e => e.1 == k)).length

/-- The partition-key invariant: no two items share a key. -/
def keysNodup (st : List (String × α)) : Prop :=
  (st.map Prod.fst).Nodup

end KeyedTable

/-- The validated body of `/api/subscribe` (zod `subscriptionSchema`):
an endpoint URL and the browser's crypto keys.  The core treats it as
an opaque blob. -/
structure PushSubscription where
  endpoint : String
  p256dh : String
  auth : String
deriving DecidableEq, Repr

/-- `POST /api/subscribe`: store (overwrite) the caller's subscription,
respond `{success:true}` 201. -/
def subscribeRoute (subTable : List (String × PushSubscription)) (uid : String)
    (sub : PushSubscription) : List (String × PushSubscription) × Bool :=
  (tablePut subTable uid sub, true)

/-- `DELETE /api/books/:bookId`: `DeleteCommand` on key
`(userId, bookId)`.  DynamoDB delete succeeds whether or not the item
exists. -/
def deleteBook (st : List LoanItem) (uid bid : String) : List LoanItem :=
  st.filter (fun r => !(r.userId == uid && r.bookId == bid))

/-- The delete route: unconditionally responds `{success:true}` and
leaves the table without the addressed item. -/
def deleteRoute (st : List LoanItem) (uid bid : String) : Bool × List LoanItem :=
  (true, deleteBook st uid bid)

/-! ### The scheduled notification scan -/

/-- The DynamoDB filter `dueDate = :v` with `:v` a string value: true
exactly on items whose `dueDate` attribute is that very string
(absent or differently-typed attributes do not match). -/
def dueMatches (d : JsVal) (s : String) : Bool :=
  match d with
  | .val (.str t) => t == s
  | _ => false

/-- The books scan of `handleScheduledNotification`:
`FilterExpression: 'dueDate = :today or dueDate = :tomorrow'` over the
whole table — note there is no `userId` condition. -/
def findDueSoon (booksTable : List LoanItem) (today : Date) : List LoanItem :=
  booksTable.filter
    (fun b =>
      dueMatches b.dueDate (fmtDate today) ||
      dueMatches b.dueDate (fmtDate (addOneDay today)))

/-- String interpolation of a JS value inside the notification body
template literal.  Exact for the cases any claim exercises (strings,
`undefined`, `null`, booleans); numbers are rendered through `Rat`'s
printer instead of JS double formatting, and array/object interpolation
is abbreviated — no stored field in any statement below is a number,
array or object. -/
def jsDisplay : JsVal → String
  | .undefined => "undefined"
  | .val .null => "null"
  | .val (.bool true) => "true"
  | .val (.bool false) => "false"
  | .val (.str s) => s
  | .val (.num q) => toString q
  | .val (.arr _) => "[array]"
  | .val (.obj _) => "[object Object]"

/-- The `notificationPayload` built for one book. -/
structure NotificationPayload where
  title : String
  body : String
deriving DecidableEq, Repr

def payloadTitle : String := "Book Return Reminder"

def renderPayload (b : LoanItem) : NotificationPayload :=
  { title := payloadTitle
    body :=
      "Your book \"" ++ jsDisplay b.title ++ "\" is due on " ++
        jsDisplay b.dueDate ++ "." }

/-- Observable outcome of one scheduled scan: the
`webpush.sendNotification` calls that were made, in order, and whether
the scan's `catch` fired (logging `Error sending notifications`). -/
structure ScanResult where
  attempts : List (PushSubscription × NotificationPayload)
  errorCaught : Bool
deriving DecidableEq, Repr

/-- The `for (const book of booksToNotify)` loop.  `send` is the
oracle for `webpush.sendNotification`: `false` means the awaited
promise rejects.  The loop body is inside the function-level `try`, so
a rejection propagates to the `catch` OUTSIDE the loop: the failing
book's delivery is attempted, and no later book is processed. -/
def deliverLoop (send : PushSubscription → NotificationPayload → Bool)
    (sub : PushSubscription) :
    List LoanItem → List (PushSubscription × NotificationPayload) × Bool
  | [] => ([], false)
  | b :: rest =>
    let p := renderPayload b
    if send sub p then
      let r := deliverLoop send sub rest
      ((sub, p) :: r.1, r.2)
    else ([(sub, p)], true)

/-- `handleScheduledNotification`, from the computed reference date on:
scan for books due today or tomorrow, early-return when none, fetch the
subscription stored under the FIXED key `defaultUser`, early-return
when absent, then deliver one notification per due book. -/
def handleScheduledNotification (booksTable : List LoanItem)
    (subTable : List (String × PushSubscription)) (today : Date)
    (send : PushSubscription → NotificationPayload → Bool) : ScanResult :=
  let booksToNotify := findDueSoon booksTable today
  if booksToNotify.isEmpty then ⟨[], false⟩
  else
    match tableGet subTable defaultUserKey with
    | none => ⟨[], false⟩
    | some sub =>
      let r := deliverLoop send sub booksToNotify
      ⟨r.1, r.2⟩

/-! ### Concrete inputs used in counterexamples and witnesses -/

/-- Every contiguous substring of a character list. -/
def allSubstrings (cs : List Char) : List (List Char) :=
  (cs.tails.map List.inits).flatten

/-- A deterministic id supply standing in for `uuidv4()`. -/
def exIds : Nat → String :=
  fun i => "id-" ++ toString i

/-- A raw model response whose only well-formed book candidate lacks a
`title`. -/
def exRawMissingTitle : String :=
  "\x7b \"books\": [ \x7b \"lending_date\": \"2025-06-01\", \"due_date\": \"2025-06-10\" \x7d ] \x7d"

/-- The loan record the upload handler builds from
`exRawMissingTitle`'s single book: `title` is `undefined`. -/
def exItemMissingTitle : LoanItem :=
  { userId := defaultUserKey
    bookId := exIds 0
    title := .undefined
    lendingDate := .val (.str ("2025-06-01"))
    dueDate := .val (.str ("2025-06-10")) }

def exC3Pre : String := "Here is the extracted data: "
def exC3Json : String := "\x7b \"books\": [] \x7d"
def exC3Post : String := " hope it helps! \x7d"

/-- Trailing prose with no brace in it, for the benign wrapping case. -/
def exC3SafePost : String := " ok"

/-- Prose-wrapped response: it contains the valid JSON object
`exC3Json`, but the prose after it contains one more closing brace. -/
def exC3Raw : String := exC3Pre ++ exC3Json ++ exC3Post

/-- A response with a brace pair but no JSON anywhere inside. -/
def exC6Raw : String := "\x7b oops \x7d"

/-- A response with no brace pair at all. -/
def exNoBraces : String := "I could not read the image."

def exSub : PushSubscription :=
  { endpoint := "https://push.example/ep"
    p256dh := "p256key"
    auth := "authsecret" }

def exBookA : LoanItem :=
  { userId := "u1", bookId := "b1", title := .val (.str ("A"))
    lendingDate := .undefined, dueDate := .val (.str ("2025-06-10")) }

def exBookB : LoanItem :=
  { userId := "u2", bookId := "b2", title := .val (.str ("B"))
    lendingDate := .undefined, dueDate := .val (.str ("2025-06-11")) }

def exBookC : LoanItem :=
  { userId := "u3", bookId := "b3", title := .val (.str ("C"))
    lendingDate := .undefined, dueDate := .val (.str ("2025-06-10")) }

def exBookLater : LoanItem :=
  { userId := "u1", bookId := "b9", title := .val (.str ("Z"))
    lendingDate := .undefined, dueDate := .val (.str ("2025-06-09")) }

def exDate : Date := { year := 2025, month := 6, day := 10 }

def exBooksTable : List LoanItem := [exBookA, exBookB, exBookC]

def exSubTable : List (String × PushSubscription) := [(defaultUserKey, exSub)]

/-- A `webpush.sendNotification` oracle that rejects exactly on book
`A`'s payload and resolves on every other delivery. -/
def exSendFailA : PushSubscription → NotificationPayload → Bool :=
  fun _ p => p.body != "Your book \"A\" is due on 2025-06-10."

/-- A `webpush.sendNotification` oracle that always resolves. -/
def exSendOk : PushSubscription → NotificationPayload → Bool :=
  fun _ _ => true

def exUid : String := "u1"

def exAbsentBid : String := "no-such-book"

def exGhostUser : String := "ghostUser"

def exSub2 : PushSubscription :=
  { endpoint := "https://push.example/ep2"
    p256dh := "p256key2"
    auth := "authsecret2" }

/-! ## Theorems -/

theorem dueMatches_iff (v : JsVal) (s : String) :
    dueMatches v s = true ↔ v = .val (.str s) := by
  cases v with
  | undefined => simp [dueMatches]
  | val j => cases j <;> simp [dueMatches]

/-- Claim C4: for every stored set of loans and reference date `d`, the
due-soon scan returns exactly the loans — across all users, there being
no `userId` condition in the statement — whose `dueDate` is the
formatted `d` or the formatted `d + 1 day`, and no others. -/
theorem C4_findDueSoon_exact (table : List LoanItem) (d : Date) (b : LoanItem) :
    b ∈ findDueSoon table d ↔
      b ∈ table ∧
        (b.dueDate = .val (.str (fmtDate d)) ∨
          b.dueDate = .val (.str (fmtDate (addOneDay d)))) := by
  simp [findDueSoon, List.mem_filter, dueMatches_iff]

/-- Claim C5: a total extraction failure makes the whole ingestion fail
with the extraction cause (caught and logged by the handler, surfaced
as the 500 response), zero records are created, and the books table is
left exactly as it was. -/
theorem C5_extraction_failure_leaves_store (uid : String) (ids : Nat → String)
    (raw : List Char) (store : List LoanItem) (e : UploadError)
    (h : extractBooks raw = .error e) :
    uploadHandler uid ids raw store = (.error e, store) := by
  simp [uploadHandler, h]

theorem C5_witness :
    extractBooks exNoBraces.toList = .error .noJsonFound ∧
      uploadHandler defaultUserKey exIds exNoBraces.toList [exBookA] =
        (.error .noJsonFound, [exBookA]) :=
  ⟨by rfl, C5_extraction_failure_leaves_store _ _ _ _ _ (by rfl)⟩

/-- Claim C9: deleting a `(userId, bookId)` key that is not in the
books table succeeds (the route answers `success`), leaves the table
unchanged, and deletion is idempotent. -/
theorem C9_delete_absent_is_noop (st : List LoanItem) (uid bid : String)
    (h : ∀ r ∈ st, ¬(r.userId = uid ∧ r.bookId = bid)) :
    (deleteRoute st uid bid).1 = true ∧
      (deleteRoute st uid bid).2 = st ∧
      deleteBook (deleteBook st uid bid) uid bid = deleteBook st uid bid := by
  refine ⟨rfl, ?_, ?_⟩
  · show deleteBook st uid bid = st
    rw [deleteBook, List.filter_eq_self]
    intro r hr
    have hh := h r hr
    simp only [not_and] at hh
    simp
    tauto
  · rw [deleteBook, deleteBook, List.filter_eq_self]
    intro r hr
    exact (List.mem_filter.mp hr).2

theorem C9_witness :
    (∀ r ∈ [exBookA], ¬(r.userId = exUid ∧ r.bookId = exAbsentBid)) ∧
      (deleteRoute [exBookA] exUid exAbsentBid).1 = true ∧
      (deleteRoute [exBookA] exUid exAbsentBid).2 = [exBookA] :=
  ⟨by decide,
    (C9_delete_absent_is_noop [exBookA] exUid exAbsentBid (by decide)).1,
    (C9_delete_absent_is_noop [exBookA] exUid exAbsentBid (by decide)).2.1⟩

theorem buildPutRequests_length (uid : String) (ids : Nat → String) :
    ∀ (books : List Json) (i : Nat) (items : List LoanItem),
      buildPutRequests uid ids i books = some items →
      items.length = books.length := by
  intro books
  induction books with
  | nil =>
    intro i items h
    simp [buildPutRequests] at h
    simp [← h]
  | cons b rest ih =>
    intro i items h
    cases b <;> simp [buildPutRequests] at h <;>
      obtain ⟨items', hrec, rfl⟩ := h <;>
        simp [ih (i + 1) items' hrec]

theorem uploadHandler_ok_eq (uid : String) (ids : Nat → String)
    (raw : List Char) (store : List LoanItem) (books : List Json)
    (items : List LoanItem)
    (hext : extractBooks raw = .ok books)
    (hbuild : buildPutRequests uid ids 0 books = some items) :
    uploadHandler uid ids raw store = (.ok items.length, store ++ items) := by
  have hmain : uploadHandler uid ids raw store =
      if items.length > 0 then (.ok items.length, store ++ items)
      else (.ok items.length, store) := by
    simp [uploadHandler, hext, hbuild]
  by_cases hpos : items.length > 0
  · rw [hmain, if_pos hpos]
  · have hnil : items = [] := by
      cases items with
      | nil => rfl
      | cons a t => simp at hpos
    subst hnil
    rw [hmain]
    simp

/-- Claim C7: a successful ingestion reports the number of records
written; the empty `books` array is a success with count `0` and no
store write. -/
theorem C7_count_reported (uid : String) (ids : Nat → String) (raw : List Char)
    (store : List LoanItem) (books : List Json) (items : List LoanItem)
    (hext : extractBooks raw = .ok books)
    (hbuild : buildPutRequests uid ids 0 books = some items) :
    (uploadHandler uid ids raw store).1 = .ok items.length ∧
      (uploadHandler uid ids raw store).2 = store ++ items ∧
      (books = [] → uploadHandler uid ids raw store = (.ok 0, store)) := by
  have h := uploadHandler_ok_eq uid ids raw store books items hext hbuild
  refine ⟨by rw [h], by rw [h], ?_⟩
  intro hnil
  subst hnil
  have hlen : items = [] := by
    have := buildPutRequests_length uid ids [] 0 items hbuild
    simpa using this
  subst hlen
  simpa using h

theorem C7_witness :
    extractBooks exC3Json.toList = .ok [] ∧
      uploadHandler defaultUserKey exIds exC3Json.toList [exBookA] =
        (.ok 0, [exBookA]) := by
  refine ⟨by rfl, ?_⟩
  have h := C7_count_reported defaultUserKey exIds exC3Json.toList [exBookA]
    [] [] (by rfl) (by rfl)
  exact h.2.2 rfl

theorem buildPutRequests_get (uid : String) (ids : Nat → String) :
    ∀ (books : List Json) (i : Nat) (items : List LoanItem),
      buildPutRequests uid ids i books = some items →
      ∀ (k : Nat) (hk : k < books.length) (hk2 : k < items.length),
        items.get ⟨k, hk2⟩ =
          { userId := uid
            bookId := ids (i + k)
            title := jsGet (books.get ⟨k, hk⟩) titleKey
            lendingDate := jsGet (books.get ⟨k, hk⟩) lendingDateKey
            dueDate := jsGet (books.get ⟨k, hk⟩) dueDateKey } := by
  intro books
  induction books with
  | nil =>
    intro i items h k hk hk2
    simp at hk
  | cons b rest ih =>
    intro i items h k hk hk2
    cases b <;> simp [buildPutRequests] at h <;>
      obtain ⟨items', hrec, rfl⟩ := h <;>
      · cases k with
        | zero => simp [jsGet]
        | succ k =>
          have hk' : k < rest.length := by simpa using hk
          have hk2' : k < items'.length := by simpa using hk2
          have := ih (i + 1) items' hrec k hk' hk2'
          simpa [Nat.add_assoc, Nat.add_comm 1 k] using this

/-- Claim C2 fails on the code: the single extracted book of
`exRawMissingTitle` has no `title`, yet the ingestion succeeds with
count 1 and the record is persisted with `title` `undefined` — it is
neither dropped nor validated. -/
theorem C2_counterexample :
    uploadHandler defaultUserKey exIds exRawMissingTitle.toList [] =
      (.ok 1, [exItemMissingTitle]) ∧
      exItemMissingTitle.title = .undefined := by
  exact ⟨by rfl, rfl⟩

/-- Claim C2 (amended): the upload handler performs no validation at
all.  Every element of `books` (none being JSON `null`) yields exactly
one persisted record whose `title`, `lendingDate` and `dueDate` are the
raw property reads — `undefined` included — of that element: nothing is
dropped, nothing is checked against the date format. -/
theorem C2_no_validation_everything_persisted (uid : String)
    (ids : Nat → String) (raw : List Char) (store : List LoanItem)
    (books : List Json) (items : List LoanItem)
    (hext : extractBooks raw = .ok books)
    (hbuild : buildPutRequests uid ids 0 books = some items) :
    items.length = books.length ∧
      (uploadHandler uid ids raw store).2 = store ++ items ∧
      ∀ (k : Nat) (hk : k < books.length) (hk2 : k < items.length),
        (items.get ⟨k, hk2⟩).title = jsGet (books.get ⟨k, hk⟩) titleKey ∧
          (items.get ⟨k, hk2⟩).lendingDate =
            jsGet (books.get ⟨k, hk⟩) lendingDateKey ∧
          (items.get ⟨k, hk2⟩).dueDate =
            jsGet (books.get ⟨k, hk⟩) dueDateKey := by
  refine ⟨buildPutRequests_length uid ids books 0 items hbuild,
    by rw [uploadHandler_ok_eq uid ids raw store books items hext hbuild], ?_⟩
  intro k hk hk2
  rw [buildPutRequests_get uid ids books 0 items hbuild k hk hk2]
  exact ⟨rfl, rfl, rfl⟩

theorem C2_witness :
    extractBooks exRawMissingTitle.toList =
        .ok [.obj [(lendingDateKey, .str ("2025-06-01")),
          (dueDateKey, .str ("2025-06-10"))]] ∧
      (uploadHandler defaultUserKey exIds exRawMissingTitle.toList []).2 =
        [] ++ [exItemMissingTitle] := by
  refine ⟨by rfl, ?_⟩
  exact (C2_no_validation_everything_persisted defaultUserKey exIds
    exRawMissingTitle.toList []
    [.obj [(lendingDateKey, .str ("2025-06-01")), (dueDateKey, .str ("2025-06-10"))]]
    [exItemMissingTitle] (by rfl) (by rfl)).2.1

/-- Claim C8: `put` stores exactly one subscription per user (full
overwrite), a later `get` of that user returns the stored value, the
key-uniqueness invariant is preserved, and `get` of a user with no
record in the table is `none`, not an error. -/
theorem C8_subscription_put_get (st : List (String × PushSubscription))
    (u : String) (s : PushSubscription) :
    tableGet (subscribeRoute st u s).1 u = some s ∧
      (subscribeRoute st u s).2 = true ∧
      countKey (subscribeRoute st u s).1 u = 1 ∧
      (keysNodup st → keysNodup (subscribeRoute st u s).1) ∧
      (∀ u₂, countKey st u₂ = 0 → tableGet st u₂ = none) := by
  refine ⟨?_, rfl, ?_, ?_, ?_⟩
  · have hnone :
        (st.filter (fun e => e.1 != u)).find? (fun e => e.1 == u) = none := by
      rw [List.find?_eq_none]
      intro x hx
      rcases List.mem_filter.mp hx with ⟨_, hne⟩
      simp only [bne_iff_ne, ne_eq] at hne
      simp [hne]
    show (((st.filter (fun e => e.1 != u)) ++ [(u, s)]).find?
        (fun e => e.1 == u)).map Prod.snd = some s
    rw [List.find?_append, hnone]
    simp [List.find?]
  · show (((st.filter (fun e => e.1 != u)) ++ [(u, s)]).filter
        (fun e => e.1 == u)).length = 1
    rw [List.filter_append, List.filter_filter]
    have hnil : (st.filter (fun e => (e.1 == u) && (e.1 != u))) = [] := by
      apply List.filter_eq_nil_iff.mpr
      intro a _
      by_cases hau : a.1 = u <;> simp [hau]
    rw [hnil]
    simp
  · intro h
    show ((st.filter (fun e => e.1 != u)) ++ [(u, s)]).map Prod.fst |>.Nodup
    rw [List.map_append, List.nodup_append]
    refine ⟨((List.filter_sublist st).map Prod.fst).nodup h, by simp, ?_⟩
    intro a ha
    rcases List.mem_map.mp ha with ⟨e, he, rfl⟩
    rcases List.mem_filter.mp he with ⟨_, hne⟩
    simp only [bne_iff_ne, ne_eq] at hne
    simp [hne]
  · intro u₂ hcnt
    have hnil : st.filter (fun e => e.1 == u₂) = [] :=
      List.length_eq_zero.mp hcnt
    have hall := List.filter_eq_nil_iff.mp hnil
    show (st.find? (fun e => e.1 == u₂)).map Prod.snd = none
    rw [List.find?_eq_none.mpr hall]
    rfl

theorem C8_witness :
    tableGet (subscribeRoute exSubTable defaultUserKey exSub2).1
        defaultUserKey = some exSub2 ∧
      keysNodup (subscribeRoute exSubTable defaultUserKey exSub2).1 ∧
      tableGet exSubTable exGhostUser = none :=
  ⟨(C8_subscription_put_get exSubTable defaultUserKey exSub2).1,
    (C8_subscription_put_get exSubTable defaultUserKey exSub2).2.2.2.1
      (by unfold keysNodup; decide),
    (C8_subscription_put_get exSubTable defaultUserKey exSub2).2.2.2.2
      exGhostUser (by decide)⟩

theorem dropWhile_append_of_forall {α : Type} {p : α → Bool} :
    ∀ (l₁ l₂ : List α), (∀ c ∈ l₁, p c = true) →
      List.dropWhile p (l₁ ++ l₂) = List.dropWhile p l₂ := by
  intro l₁
  induction l₁ with
  | nil => simp
  | cons a t ih =>
    intro l₂ h
    rw [List.cons_append, List.dropWhile_cons, if_pos (h a (by simp))]
    exact ih l₂ (fun c hc => h c (by simp [hc]))

/-- For prose containing no `\x7b` before the JSON object and no
`\x7d` after it, the regex `/{[\s\S]*}/` matches exactly the JSON
object: its first character is the first opening brace of the whole
text and its last character is the last closing brace. -/
theorem jsonCandidate_wrapped (pre js post : List Char)
    (hpre : ∀ c ∈ pre, c ≠ '{')
    (hpost : ∀ c ∈ post, c ≠ '}')
    (hhead : js.head? = some '{')
    (hlast : js.getLast? = some '}') :
    jsonCandidate (pre ++ js ++ post) = some js := by
  obtain ⟨t, rfl⟩ : ∃ t, js = '{' :: t := by
    cases js with
    | nil => simp at hhead
    | cons a t =>
      simp at hhead
      exact ⟨t, by rw [hhead]⟩
  have h1 : List.dropWhile (fun c => c != '{') (pre ++ ('{' :: t) ++ post) =
      '{' :: (t ++ post) := by
    rw [List.append_assoc,
      dropWhile_append_of_forall pre _ (fun c hc => by simpa using hpre c hc),
      List.cons_append, List.dropWhile_cons]
    simp
  obtain ⟨s, hjr⟩ : ∃ s, ('{' :: t).reverse = '}' :: s := by
    have hh := List.head?_reverse ('{' :: t)
    rw [hlast] at hh
    cases hr : ('{' :: t).reverse with
    | nil => rw [hr] at hh; simp at hh
    | cons a s =>
      rw [hr] at hh
      simp at hh
      exact ⟨s, by rw [hh]⟩
  have h2 : List.dropWhile (fun c => c != '}') ('{' :: (t ++ post)).reverse =
      '}' :: s := by
    have : ('{' :: (t ++ post)).reverse = post.reverse ++ ('{' :: t).reverse := by
      simp
    rw [this,
      dropWhile_append_of_forall post.reverse _
        (fun c hc => by simpa using hpost c (List.mem_reverse.mp hc)),
      hjr, List.dropWhile_cons]
    simp
  have h3 : ('}' :: s).reverse = '{' :: t := by
    rw [← hjr, List.reverse_reverse]
  simp only [jsonCandidate, h1, h2, h3]

/-- Claim C3 (amended): extraction succeeds on prose- or fence-wrapped
responses provided the wrapping adds no opening brace before the JSON
object and no closing brace after it; the matched substring is then the
object itself, and all entries of its `books` array are returned. -/
theorem C3_extract_wrapped (pre js post : List Char)
    (fields : List (String × Json)) (books : List Json)
    (hpre : ∀ c ∈ pre, c ≠ '{')
    (hpost : ∀ c ∈ post, c ≠ '}')
    (hhead : js.head? = some '{')
    (hlast : js.getLast? = some '}')
    (hparse : jsonParse js = some (.obj fields))
    (hbooks : objGet fields booksKey = some (.arr books)) :
    extractBooks (pre ++ js ++ post) = .ok books := by
  have hc : jsonCandidate (pre ++ (js ++ post)) = some js := by
    rw [← List.append_assoc]
    exact jsonCandidate_wrapped pre js post hpre hpost hhead hlast
  simp [extractBooks, hc, hparse, jsGet, hbooks]

/-- Claim C3 fails on the code as universally stated: `exC3Raw`
contains the valid JSON object `exC3Json` whose `books` array is
well-formed, but a stray closing brace in the trailing prose makes the
greedy first-`\x7b`-to-last-`\x7d` match unparseable, so extraction
throws a JSON parse error instead of succeeding. -/
theorem C3_counterexample :
    extractBooks exC3Raw.toList = .error .jsonParseError ∧
      jsonParse exC3Json.toList = some (.obj [(booksKey, .arr [])]) ∧
      exC3Raw.toList = exC3Pre.toList ++ exC3Json.toList ++ exC3Post.toList :=
  ⟨by rfl, by rfl, by rfl⟩

theorem C3_witness :
    extractBooks (exC3Pre.toList ++ exC3Json.toList ++ exC3SafePost.toList) =
      .ok [] :=
  C3_extract_wrapped exC3Pre.toList exC3Json.toList exC3SafePost.toList
    [(booksKey, .arr [])] [] (by decide) (by decide) (by rfl) (by rfl)
    (by rfl) (by rfl)

/-- Claim C6 fails on the code: in `exC6Raw` no substring whatsoever
parses as JSON, so under the claim extraction would fail with
`no-json-found`; the code instead finds the brace-delimited candidate,
hands it to `JSON.parse`, and fails with the distinct JSON parse
error. -/
theorem C6_counterexample :
    (allSubstrings exC6Raw.toList).all (fun s => (jsonParse s).isNone) = true ∧
      extractBooks exC6Raw.toList = .error .jsonParseError ∧
      UploadError.jsonParseError ≠ UploadError.noJsonFound :=
  ⟨by rfl, by rfl, by decide⟩

/-- Claim C6 (amended): `no-json-found` is raised exactly when the text
has no opening brace later followed by a closing brace (the regex finds
no candidate); a candidate that fails `JSON.parse` raises a distinct
parse error; and the schema failure is raised exactly when the
candidate parses but its `books` property is missing or not an array.
The three failure kinds are pairwise distinct values. -/
theorem C6_error_taxonomy (raw : List Char) :
    (extractBooks raw = .error .noJsonFound ↔ jsonCandidate raw = none) ∧
      (∀ cand, jsonCandidate raw = some cand → jsonParse cand = none →
        extractBooks raw = .error .jsonParseError) ∧
      (extractBooks raw = .error .invalidFormat ↔
        ∃ cand v, jsonCandidate raw = some cand ∧ jsonParse cand = some v ∧
          isArrayVal (jsGet v booksKey) = false) := by
  rcases hc : jsonCandidate raw with _ | cand
  · simp [extractBooks, hc]
  · rcases hp : jsonParse cand with _ | v
    · simp [extractBooks, hc, hp]
    · rcases hg : jsGet v booksKey with _ | j
      · simp [extractBooks, hc, hp, hg, isArrayVal]
      · cases j <;> simp [extractBooks, hc, hp, hg, isArrayVal]

theorem C6_witness :
    extractBooks exC6Raw.toList = .error .jsonParseError :=
  (C6_error_taxonomy exC6Raw.toList).2.1 (exC6Raw.toList) (by rfl) (by rfl)

theorem deliverLoop_attempts_sub
    (send : PushSubscription → NotificationPayload → Bool)
    (sub : PushSubscription) :
    ∀ (l : List LoanItem), ∀ a ∈ (deliverLoop send sub l).1, a.1 = sub := by
  intro l
  induction l with
  | nil => simp [deliverLoop]
  | cons b t ih =>
    intro a ha
    by_cases hs : send sub (renderPayload b) = true
    · simp [deliverLoop, hs] at ha
      rcases ha with rfl | ha
      · rfl
      · exact ih a ha
    · rw [Bool.not_eq_true] at hs
      simp [deliverLoop, hs] at ha
      rw [ha]

theorem deliverLoop_all_ok
    (send : PushSubscription → NotificationPayload → Bool)
    (sub : PushSubscription) :
    ∀ (l : List LoanItem), (∀ b ∈ l, send sub (renderPayload b) = true) →
      deliverLoop send sub l =
        (l.map (fun b => (sub, renderPayload b)), false) := by
  intro l
  induction l with
  | nil => simp [deliverLoop]
  | cons b t ih =>
    intro h
    rw [deliverLoop.eq_def]
    simp only [h b (by simp)]
    simp [ih (fun x hx => h x (by simp [hx]))]

theorem deliverLoop_abort
    (send : PushSubscription → NotificationPayload → Bool)
    (sub : PushSubscription) (bad : LoanItem) (post : List LoanItem)
    (hbad : send sub (renderPayload bad) = false) :
    ∀ (pre : List LoanItem), (∀ b ∈ pre, send sub (renderPayload b) = true) →
      deliverLoop send sub (pre ++ bad :: post) =
        ((pre ++ [bad]).map (fun b => (sub, renderPayload b)), true) := by
  intro pre
  induction pre with
  | nil =>
    intro _
    rw [List.nil_append, deliverLoop.eq_def]
    simp [hbad]
  | cons a t ih =>
    intro h
    rw [List.cons_append, deliverLoop.eq_def]
    simp only [h a (by simp)]
    simp [ih (fun x hx => h x (by simp [hx]))]

/-- Claim C1 fails on the code: with three due loans and the first
delivery rejecting, the scan's `catch` (outside the `for` loop) fires,
only the first delivery is attempted, and the remaining two loans get
no delivery attempt at all. -/
theorem C1_counterexample :
    (findDueSoon exBooksTable exDate).length = 3 ∧
      handleScheduledNotification exBooksTable exSubTable exDate exSendFailA =
        { attempts := [(exSub, renderPayload exBookA)], errorCaught := true } :=
  ⟨by rfl, by rfl⟩

/-- Claim C1 (amended): one failing delivery is caught and logged by
the scan-level handler, but it ABORTS the loop: deliveries before the
failing one complete, the failing one is attempted, and no loan after
it is attempted in that scan. -/
theorem C1_failure_aborts_scan (table : List LoanItem)
    (subTable : List (String × PushSubscription)) (today : Date)
    (send : PushSubscription → NotificationPayload → Bool)
    (sub : PushSubscription) (pre : List LoanItem) (bad : LoanItem)
    (post : List LoanItem)
    (hscan : findDueSoon table today = pre ++ bad :: post)
    (hsub : tableGet subTable defaultUserKey = some sub)
    (hpre : ∀ b ∈ pre, send sub (renderPayload b) = true)
    (hbad : send sub (renderPayload bad) = false) :
    handleScheduledNotification table subTable today send =
      { attempts := (pre ++ [bad]).map (fun b => (sub, renderPayload b))
        errorCaught := true } := by
  have hne : (findDueSoon table today).isEmpty = false := by
    rw [hscan]
    simp
  rw [handleScheduledNotification, hscan] at *
  rw [hne]
  simp only [Bool.false_eq_true, if_false, hsub]
  rw [deliverLoop_abort send sub bad post hbad pre hpre]

theorem C1_witness :
    handleScheduledNotification exBooksTable exSubTable exDate exSendFailA =
      { attempts := [(exSub, renderPayload exBookA)], errorCaught := true } :=
  C1_failure_aborts_scan exBooksTable exSubTable exDate exSendFailA exSub
    [] exBookA [exBookB, exBookC] (by rfl) (by rfl) (by simp) (by rfl)

/-- Claim C10: the scheduled scan notifies exclusively through the
subscription stored under the fixed key `defaultUser`: if that key is
absent nothing is sent for anyone's loans; every attempted delivery
uses that one subscription; any loan due today is scanned regardless of
its `userId`; and when all deliveries succeed, every due loan — whoever
owns it — produces exactly one notification through `defaultUser`'s
subscription. -/
theorem C10_default_user_only (table : List LoanItem)
    (subTable : List (String × PushSubscription)) (today : Date)
    (send : PushSubscription → NotificationPayload → Bool) :
    (tableGet subTable defaultUserKey = none →
        (handleScheduledNotification table subTable today send).attempts = []) ∧
      (∀ b ∈ table, dueMatches b.dueDate (fmtDate today) = true →
        b ∈ findDueSoon table today) ∧
      (∀ sub, tableGet subTable defaultUserKey = some sub →
        (∀ a ∈ (handleScheduledNotification table subTable today send).attempts,
          a.1 = sub) ∧
        ((∀ b ∈ findDueSoon table today, send sub (renderPayload b) = true) →
          (handleScheduledNotification table subTable today send).attempts =
            (findDueSoon table today).map (fun b => (sub, renderPayload b)))) := by
  refine ⟨?_, ?_, ?_⟩
  · intro h
    rw [handleScheduledNotification]
    by_cases he : (findDueSoon table today).isEmpty
    · rw [if_pos he]
    · rw [if_neg he, h]
  · intro b hb hd
    exact List.mem_filter.mpr ⟨hb, by simp [hd]⟩
  · intro sub hsub
    constructor
    · intro a ha
      by_cases he : (findDueSoon table today).isEmpty
      · rw [handleScheduledNotification, if_pos he] at ha
        simp at ha
      · rw [handleScheduledNotification, if_neg he, hsub] at ha
        exact deliverLoop_attempts_sub send sub _ a ha
    · intro hall
      by_cases he : (findDueSoon table today).isEmpty
      · have hnil : findDueSoon table today = [] := by
          simpa [List.isEmpty_iff] using he
        rw [handleScheduledNotification, if_pos he, hnil]
        rfl
      · rw [handleScheduledNotification, if_neg he, hsub]
        show (deliverLoop send sub (findDueSoon table today)).1 = _
        rw [deliverLoop_all_ok send sub _ hall]

theorem C10_witness :
    (handleScheduledNotification exBooksTable exSubTable exDate exSendOk).attempts
      = (findDueSoon exBooksTable exDate).map (fun b => (exSub, renderPayload b)) :=
  ((C10_default_user_only exBooksTable exSubTable exDate exSendOk).2.2 exSub
      (by rfl)).2 (fun b hb => rfl)

end LibraryReminder
